import Mathlib

/-!
Shallow embedding of `quiz_web.py`, a single-session multiple-choice quiz
runner built from three screens (home, quiz, results), a chapter-filtered
random sample of at most 60 questions, per-question option shuffling, and
a score / wrong-answer log.

Modelling conventions:
* A question record carries an optional `chapter` field; the code reads it
  with `q.get("chapter", "General")`.
* Randomness (`random.shuffle`) is modelled by an explicit `shuffle`
  function parameter together with the hypothesis that it permutes its
  input.
* Python code that can raise (list indexing out of range, division by
  zero) is embedded with `Option`: `none` marks a raised exception.
* Python set iteration order is unspecified; the distinct-chapter set of
  `get_sorted_chapters` is therefore taken as an explicit enumeration
  parameter, constrained only to list the chapters of the data without
  duplicates.
-/

namespace QuizWeb

/-- A question record, as consumed by `quiz_web.py`: chapter tag
(optional in the JSON, defaulting to "General"), question text, candidate
options and the correct answer. -/
structure Question where
  chapter : Option String
  question : String
  options : List String
  answer : String
deriving DecidableEq, Repr

/-- `q.get("chapter", "General")` from the Python source. -/
def Question.chapterOrDefault (q : Question) : String :=
  q.chapter.getD "General"

/-- One entry of the wrong-answer log, as appended by `show_quiz`. -/
structure WrongAnswer where
  question : String
  selected : String
  correct : String
deriving DecidableEq, Repr

/-- The `screen` tag of the session state machine. -/
inductive Screen where
  | home
  | quiz
  | results
deriving DecidableEq, Repr

/-- The Streamlit session state fields used by `quiz_web.py`
(`quiz_data`, `score`, `current_index`, `wrong_answers`, `screen`,
`shuffled_options`). -/
structure Session where
  quiz_data : List Question
  score : Nat
  current_index : Nat
  wrong_answers : List WrongAnswer
  screen : Screen
  shuffled_options : List String
deriving DecidableEq, Repr

/-- The session state as initialised at the top of `quiz_web.py`. -/
def initSession : Session :=
  { quiz_data := []
    score := 0
    current_index := 0
    wrong_answers := []
    screen := .home
    shuffled_options := [] }

/-- The three outcomes of opening and parsing `questions.json` that
`load_data` distinguishes: the file is missing (`FileNotFoundError`),
it is not valid JSON (`json.JSONDecodeError`), or it parses. -/
inductive Resource where
  | missing
  | malformed
  | ok (data : List Question)

/-- Result of `load_data`: the returned question collection together with
whether `st.error` was called (the non-fatal corruption message). -/
structure LoadResult where
  questions : List Question
  errorShown : Bool
deriving DecidableEq, Repr

/-- `load_data` from `quiz_web.py`: returns the parsed data on success,
the empty list on `FileNotFoundError`, and the empty list after showing
`st.error` on `json.JSONDecodeError`.  The function is total: both
exception branches are caught, so no input makes it raise. -/
def load_data : Resource → LoadResult
  | .missing => { questions := [], errorShown := false }
  | .malformed => { questions := [], errorShown := true }
  | .ok d => { questions := d, errorShown := false }

/-- Value of the digit list `ds` read as a decimal number, as
`int(...)` does on the matched digits. -/
def digitsVal (ds : List Char) : Nat :=
  ds.foldl (fun n c => 10 * n + (c.toNat - '0'.toNat)) 0

/-- The first maximal run of decimal digits in a character list: the
match of the regular expression for one-or-more digits. -/
def firstDigitRun : List Char → Option (List Char)
  | [] => none
  | c :: rest =>
      if c.isDigit then some (c :: rest.takeWhile Char.isDigit)
      else firstDigitRun rest

/-- `int(re.search(..., str(x)).group())` when a digit run exists in `x`,
`none` otherwise. -/
def firstNumericSubstring (x : String) : Option Nat :=
  (firstDigitRun x.data).map digitsVal

/-- The numeric sort key used by `get_sorted_chapters` on the all-numeric
branch (the default value is never consulted there, since every
identifier has a digit run). -/
def numericKey (x : String) : Nat :=
  (firstNumericSubstring x).getD 0

/-- `get_sorted_chapters` from `quiz_web.py`, applied to an enumeration
`enum` of the distinct chapter identifiers (Python's
`set(q.get("chapter", "General") for q in data)` in its unspecified
iteration order).  The Python `sorted` key maps an identifier to the
`int` value of its first digit run when one exists and to the string
itself otherwise; when identifiers of both kinds are present (and there
are at least two elements, which mixing forces), comparing an `int` key
with a `str` key raises `TypeError`, caught by the bare `except`, which
re-sorts with `key=str`.  Hence: if every identifier has a digit run the
result is the stable sort by numeric key; otherwise it is the sort by
string order (also what `key=str(x)` yields when no identifier has a
digit run).  Both branches are modelled with the stable
`List.insertionSort`, matching Python's stable `sorted`. -/
def get_sorted_chapters (enum : List String) : List String :=
  if enum.all (fun x => (firstNumericSubstring x).isSome) then
    enum.insertionSort (fun a b => numericKey a ≤ numericKey b)
  else
    enum.insertionSort (fun a b : String => a ≤ b)

/-- `enum` is a faithful enumeration of the distinct chapter identifiers
of `data` (with the "General" default): no duplicates, every listed
identifier is some question's chapter, and every question's chapter is
listed. -/
def IsChapterEnum (data : List Question) (enum : List String) : Prop :=
  enum.Nodup ∧
  (∀ x ∈ enum, ∃ q ∈ data, q.chapterOrDefault = x) ∧
  (∀ q ∈ data, q.chapterOrDefault ∈ enum)

/-- The question pool filtered to the selected chapters, from
`show_home`: `[q for q in all_data if q.get("chapter", "General") in selected_ids]`. -/
def filterPool (all_data : List Question) (selected_ids : List String) : List Question :=
  all_data.filter (fun q => selected_ids.contains q.chapterOrDefault)

/-- The START EXAM branch of `show_home`.  If no chapter label is
selected a warning is shown and the state is untouched; otherwise the
pool is filtered to the selected chapters, shuffled, truncated to 60,
and the session is re-initialised on the quiz screen.  There is no
check that the filtered pool is non-empty. -/
def startExam (shuffle : List Question → List Question)
    (all_data : List Question) (selected_ids : List String)
    (s : Session) : Session :=
  if selected_ids.isEmpty then s
  else
    { s with
      quiz_data := (shuffle (filterPool all_data selected_ids)).take 60
      score := 0
      current_index := 0
      wrong_answers := []
      screen := .quiz
      shuffled_options := [] }

/-- The progress fraction computed at the top of `show_quiz`:
`q_index / total` with no guard, so `none` (a `ZeroDivisionError`) when
`quiz_data` is empty. -/
def show_quiz_progress (s : Session) : Option ℚ :=
  if s.quiz_data.length = 0 then none
  else some ((s.current_index : ℚ) / (s.quiz_data.length : ℚ))

/-- The percentage computed by `show_results`:
`(score / total) * 100` with no guard, so `none` (a `ZeroDivisionError`)
when `quiz_data` is empty. -/
def show_results_percent (s : Session) : Option ℚ :=
  if s.quiz_data.length = 0 then none
  else some ((s.score : ℚ) / (s.quiz_data.length : ℚ) * 100)

/-- The option-caching part of `show_quiz`: fetch the current question
(`none` models the exception raised when `current_index` is out of range,
which also covers the division by zero on an empty `quiz_data`), then, if
`shuffled_options` is empty (Python truthiness of a list), store a
shuffled copy of the question's options; otherwise reuse the cache. -/
def renderQuiz (shuffle : List String → List String) (s : Session) :
    Option Session :=
  match s.quiz_data[s.current_index]? with
  | none => none
  | some q =>
      some (if s.shuffled_options.isEmpty then
              { s with shuffled_options := shuffle q.options }
            else s)

/-- Python truthiness test `not user_choice` on the radio selection:
true for `None` and for the empty string. -/
def pythonFalsy : Option String → Bool
  | none => true
  | some str => str.isEmpty

/-- Python `str.strip()`: drop leading and trailing whitespace. -/
def pyStrip (s : String) : String :=
  ⟨((s.data.dropWhile Char.isWhitespace).reverse.dropWhile
      Char.isWhitespace).reverse⟩

/-- Python `str.lower()` (ASCII fragment, which is all the data uses). -/
def pyLower (s : String) : String :=
  ⟨s.data.map Char.toLower⟩

/-- The normalisation applied to both sides of the answer comparison in
`show_quiz`: `x.strip().lower()`. -/
def normalize (s : String) : String :=
  pyLower (pyStrip s)

/-- The "Next Question" branch of `show_quiz`.  The current question is
fetched (out of range models the raised exception, `none`).  A falsy
selection only shows a warning and leaves the state unchanged.
Otherwise the selection is compared to the answer after strip+lower:
on match the score is incremented, on mismatch the wrong-answer log is
extended; the index then advances, the option cache is cleared, and when
the index reaches `len(quiz_data)` the screen becomes results. -/
def submitAnswer (choice : Option String) (s : Session) : Option Session :=
  match s.quiz_data[s.current_index]? with
  | none => none
  | some q =>
      if pythonFalsy choice then some s
      else
        let str := choice.getD ""
        let scored :=
          if normalize str = normalize q.answer then
            { s with score := s.score + 1 }
          else
            { s with wrong_answers :=
                s.wrong_answers ++
                  [{ question := q.question, selected := str,
                     correct := q.answer }] }
        let advanced :=
          { scored with
            current_index := scored.current_index + 1
            shuffled_options := [] }
        some (if s.quiz_data.length ≤ advanced.current_index then
                { advanced with screen := .results }
              else advanced)

/-- The "Take Another Quiz" button of `show_results`: only the screen
field is written. -/
def restart (s : Session) : Session :=
  { s with screen := .home }

/-- The session state immediately after a successful START EXAM whose
sampled list is `qs`. -/
def startState (qs : List Question) : Session :=
  { quiz_data := qs
    score := 0
    current_index := 0
    wrong_answers := []
    screen := .quiz
    shuffled_options := [] }

/-- Answer every question of a run in sequence, threading the session
through `submitAnswer`; `none` propagates a raised exception. -/
def runQuiz (choices : List String) (s : Session) : Option Session :=
  match choices with
  | [] => some s
  | c :: rest => (submitAnswer (some c) s).bind (runQuiz rest)

/-- The bookkeeping invariant of the quiz loop. -/
def scoreInvariant (s : Session) : Prop :=
  s.score + s.wrong_answers.length = s.current_index

/-- Sample question used in concrete instantiations. -/
def q1 : Question :=
  { chapter := some "1", question := "Q1", options := ["a", "b"], answer := "a" }

/-- Sample question whose answer differs from the options only by case
and surrounding whitespace. -/
def qGas : Question :=
  { chapter := some "4", question := "State of matter?",
    options := ["gas", "liquid"], answer := "gas" }

/-- Session positioned on `qGas`. -/
def sGas : Session := startState [qGas]

/-- A session on the quiz screen with an empty sampled list. -/
def emptyQuizSession : Session :=
  { quiz_data := []
    score := 0
    current_index := 0
    wrong_answers := []
    screen := .quiz
    shuffled_options := [] }

/-- Question bank with two chapters whose identifiers share the numeric
value 1. -/
def dataTie : List Question :=
  [{ chapter := some "b1", question := "QB", options := ["x", "y"], answer := "x" },
   { chapter := some "a1", question := "QA", options := ["x", "y"], answer := "x" }]

/-- Question with the empty string among its options. -/
def qEmptyOpt : Question :=
  { chapter := some "1", question := "Q", options := ["", "x"], answer := "x" }

/-- Session positioned on `qEmptyOpt`. -/
def sEmptyOpt : Session := startState [qEmptyOpt]
/-- Characterisation of a non-falsy answer submission: the selection is
compared to the answer after strip+lower, exactly one of the score and
the wrong-answer log grows, the index advances, the option cache is
cleared, and the screen flips to results exactly when the index reaches
the number of sampled questions. -/
theorem submitAnswer_eq (s : Session) (q : Question) (str : String)
    (hq : s.quiz_data[s.current_index]? = some q)
    (hne : str.isEmpty = false) :
    submitAnswer (some str) s =
      some { quiz_data := s.quiz_data
             score := if normalize str = normalize q.answer then s.score + 1
               else s.score
             current_index := s.current_index + 1
             wrong_answers :=
               if normalize str = normalize q.answer then s.wrong_answers
               else s.wrong_answers ++
                 [{ question := q.question, selected := str,
                    correct := q.answer }]
             screen := if s.quiz_data.length ≤ s.current_index + 1 then
                 Screen.results
               else s.screen
             shuffled_options := [] } := by
  unfold submitAnswer
  rw [hq]
  simp only [pythonFalsy, hne]
  by_cases hmatch : normalize str = normalize q.answer <;>
    by_cases hfin : s.quiz_data.length ≤ s.current_index + 1 <;>
      simp [hmatch, hfin]

/-- Claim C8: `load_data` returns the empty collection when the question
resource is missing, and the empty collection plus a surfaced non-fatal
error message when it is malformed; as a total function of the resource
outcome it raises in neither case. -/
theorem C8_load_recovers :
    load_data .missing = { questions := [], errorShown := false } ∧
    load_data .malformed = { questions := [], errorShown := true } :=
  ⟨rfl, rfl⟩

/-- Claim C1, counterexample: a start action with the non-empty chapter
selection `["2"]` over a bank whose only question is in chapter `"1"`
has an empty filtered pool, yet the transition is NOT rejected: the
session changes and moves to the quiz screen instead of staying on home. -/
theorem C1_counterexample :
    ["2"] ≠ ([] : List String) ∧ filterPool [q1] ["2"] = [] ∧
    (startExam id [q1] ["2"] initSession).screen = Screen.quiz ∧
    startExam id [q1] ["2"] initSession ≠ initSession := by
  refine ⟨by decide, by decide, by decide, by decide⟩

/-- Claim C1, amended: `show_home` has no empty-pool guard.  For every
start action with a non-empty chapter selection whose filtered pool is
empty, the session still transitions to the quiz screen, with an empty
sampled list and the other fields reset. -/
theorem C1_no_empty_pool_guard (shuffle : List Question → List Question)
    (all_data : List Question) (selected_ids : List String) (s : Session)
    (hsh : ∀ l, (shuffle l).Perm l)
    (hne : selected_ids ≠ [])
    (hpool : filterPool all_data selected_ids = []) :
    startExam shuffle all_data selected_ids s =
      { s with quiz_data := [], score := 0, current_index := 0,
               wrong_answers := [], screen := Screen.quiz,
               shuffled_options := [] } := by
  have hempty : selected_ids.isEmpty = false := by
    cases selected_ids with
    | nil => exact absurd rfl hne
    | cons a l => rfl
  have h := hsh (filterPool all_data selected_ids)
  rw [hpool] at h
  have hsh0 : shuffle [] = [] := h.eq_nil
  simp [startExam, hempty, hpool, hsh0]

/-- Claim C1, witness for the amended theorem at a concrete input. -/
theorem C1_witness :
    startExam id [q1] ["2"] initSession =
      { initSession with quiz_data := [], score := 0, current_index := 0,
                         wrong_answers := [], screen := Screen.quiz,
                         shuffled_options := [] } :=
  C1_no_empty_pool_guard id [q1] ["2"] initSession
    (fun l => List.Perm.refl l) (by decide) (by decide)

/-- Claim C2, counterexample: rendering the quiz or results screen with
an empty `quiz_data` does NOT treat the progress or percentage as 0%;
the unguarded division is undefined (`ZeroDivisionError`), not `0`. -/
theorem C2_counterexample :
    show_quiz_progress emptyQuizSession = none ∧
    show_results_percent emptyQuizSession = none ∧
    (none : Option ℚ) ≠ some 0 := by
  refine ⟨rfl, rfl, by simp⟩

/-- Claim C2, amended: both division sites are unguarded.  They are
undefined exactly when `quiz_data` is empty, and compute the plain
quotients otherwise. -/
theorem C2_unguarded_division (s : Session) :
    (s.quiz_data = [] →
      show_quiz_progress s = none ∧ show_results_percent s = none) ∧
    (s.quiz_data ≠ [] →
      show_quiz_progress s =
        some ((s.current_index : ℚ) / (s.quiz_data.length : ℚ)) ∧
      show_results_percent s =
        some ((s.score : ℚ) / (s.quiz_data.length : ℚ) * 100)) := by
  constructor
  · intro h
    simp [show_quiz_progress, show_results_percent, h]
  · intro h
    have hlen : s.quiz_data.length ≠ 0 := by
      simpa [List.length_eq_zero] using h
    simp [show_quiz_progress, show_results_percent, hlen]

/-- Claim C2, witness for the amended theorem at the empty session. -/
theorem C2_witness :
    show_quiz_progress emptyQuizSession = none ∧
    show_results_percent emptyQuizSession = none :=
  (C2_unguarded_division emptyQuizSession).1 rfl

/-- Claim C3: for every non-empty chapter selection whose filtered pool
is non-empty, starting an exam samples exactly `min 60 poolSize`
questions, and every sampled question's chapter belongs to the
selection. -/
theorem C3_sample_size_and_membership
    (shuffle : List Question → List Question)
    (all_data : List Question) (selected_ids : List String) (s : Session)
    (hsh : ∀ l, (shuffle l).Perm l)
    (hne : selected_ids ≠ [])
    (hpool : 0 < (filterPool all_data selected_ids).length) :
    (startExam shuffle all_data selected_ids s).quiz_data.length =
      min 60 (filterPool all_data selected_ids).length ∧
    ∀ q ∈ (startExam shuffle all_data selected_ids s).quiz_data,
      q.chapterOrDefault ∈ selected_ids := by
  have hempty : selected_ids.isEmpty = false := by
    cases selected_ids with
    | nil => exact absurd rfl hne
    | cons a l => rfl
  have hqd : (startExam shuffle all_data selected_ids s).quiz_data =
      (shuffle (filterPool all_data selected_ids)).take 60 := by
    simp [startExam, hempty]
  constructor
  · rw [hqd, List.length_take, (hsh _).length_eq]
  · intro q hqmem
    rw [hqd] at hqmem
    have h1 : q ∈ shuffle (filterPool all_data selected_ids) :=
      List.mem_of_mem_take hqmem
    have h2 : q ∈ filterPool all_data selected_ids :=
      ((hsh _).mem_iff).mp h1
    have h3 := List.mem_filter.mp h2
    simpa [List.contains, List.elem_iff] using h3.2

/-- Claim C3, witness at a one-question bank with its chapter selected. -/
theorem C3_witness :
    (startExam id [q1] ["1"] initSession).quiz_data.length =
      min 60 (filterPool [q1] ["1"]).length :=
  (C3_sample_size_and_membership id [q1] ["1"] initSession
    (fun l => List.Perm.refl l) (by decide) (by decide)).1

/-- Claim C4: a non-empty submitted answer is scored as correct exactly
when it equals the question's answer after trimming surrounding
whitespace and lowercasing; otherwise the attempt is logged as wrong. -/
theorem C4_answer_normalisation (s : Session) (q : Question) (str : String)
    (hq : s.quiz_data[s.current_index]? = some q)
    (hne : str.isEmpty = false) :
    ∃ s', submitAnswer (some str) s = some s' ∧
      (normalize str = normalize q.answer →
        s'.score = s.score + 1 ∧ s'.wrong_answers = s.wrong_answers) ∧
      (normalize str ≠ normalize q.answer →
        s'.score = s.score ∧
        s'.wrong_answers = s.wrong_answers ++
          [{ question := q.question, selected := str,
             correct := q.answer }]) := by
  refine ⟨_, submitAnswer_eq s q str hq hne, ?_, ?_⟩
  · intro hmatch
    simp [hmatch]
  · intro hmatch
    simp [hmatch]

/-- Claim C4, witness: submitting `" Gas "` against the correct answer
`"gas"` is scored as correct. -/
theorem C4_witness :
    ∃ s', submitAnswer (some " Gas ") sGas = some s' ∧
      s'.score = sGas.score + 1 ∧ s'.wrong_answers = sGas.wrong_answers := by
  obtain ⟨s', hs', hmatch, hmis⟩ :=
    C4_answer_normalisation sGas qGas " Gas " rfl rfl
  exact ⟨s', hs', (hmatch (by decide)).1, (hmatch (by decide)).2⟩

/-- Step characterisation used for the quiz-loop invariant: a non-falsy
submission keeps the sampled list, advances the index by one, grows
`score + len(wrongAnswers)` by exactly one, clears the option cache, and
moves to the results screen exactly when the advanced index reaches the
end. -/
theorem submitAnswer_step (s : Session) (q : Question) (str : String)
    (hq : s.quiz_data[s.current_index]? = some q)
    (hne : str.isEmpty = false) :
    ∃ s₂, submitAnswer (some str) s = some s₂ ∧
      s₂.quiz_data = s.quiz_data ∧
      s₂.current_index = s.current_index + 1 ∧
      s₂.score + s₂.wrong_answers.length =
        s.score + s.wrong_answers.length + 1 ∧
      s₂.shuffled_options = [] ∧
      (s.quiz_data.length ≤ s.current_index + 1 →
        s₂.screen = Screen.results) ∧
      (¬ s.quiz_data.length ≤ s.current_index + 1 →
        s₂.screen = s.screen) := by
  refine ⟨_, submitAnswer_eq s q str hq hne, ?_, ?_, ?_, ?_, ?_, ?_⟩
  · rfl
  · rfl
  · by_cases hm : normalize str = normalize q.answer <;> simp [hm] <;> omega
  · rfl
  · intro hf
    simp [hf]
  · intro hf
    simp [hf]

/-- Running the quiz loop over one non-falsy choice per remaining
question succeeds, answers every question, accumulates
`score + len(wrongAnswers)` by one per submission, and ends on the
results screen as soon as at least one question was answered. -/
theorem runQuiz_total (choices : List String) :
    ∀ s : Session,
      (∀ c ∈ choices, c.isEmpty = false) →
      s.current_index + choices.length = s.quiz_data.length →
      ∃ s', runQuiz choices s = some s' ∧
        s'.quiz_data = s.quiz_data ∧
        s'.current_index = s.quiz_data.length ∧
        s'.score + s'.wrong_answers.length =
          s.score + s.wrong_answers.length + choices.length ∧
        (choices = [] → s' = s) ∧
        (choices ≠ [] → s'.screen = Screen.results) := by
  induction choices with
  | nil =>
      intro s hall hlen
      refine ⟨s, rfl, rfl, ?_, by simp, fun _ => rfl, ?_⟩
      · simpa using hlen
      · intro h
        exact absurd rfl h
  | cons c rest ih =>
      intro s hall hlen
      have hidx : s.current_index < s.quiz_data.length := by
        simp only [List.length_cons] at hlen
        omega
      have hq : s.quiz_data[s.current_index]? =
          some (s.quiz_data[s.current_index]) :=
        List.getElem?_eq_getElem hidx
      have hc : c.isEmpty = false := hall c (List.mem_cons_self c rest)
      obtain ⟨s₂, hs₂, hd, hi, hsum2, hsho, hscrT, hscrF⟩ :=
        submitAnswer_step s (s.quiz_data[s.current_index]) c hq hc
      obtain ⟨s', hrun, hdata, hidx', hsum, hnil, hscr⟩ :=
        ih s₂ (fun c' hc' => hall c' (List.mem_cons_of_mem c hc'))
          (by
            rw [hi, hd]
            simp only [List.length_cons] at hlen
            omega)
      refine ⟨s', ?_, ?_, ?_, ?_, by simp, ?_⟩
      · simp only [runQuiz, hs₂, Option.some_bind]
        exact hrun
      · rw [hdata, hd]
      · rw [hidx', hd]
      · rw [hsum, hsum2]
        simp only [List.length_cons]
        omega
      · intro hne
        rcases List.eq_nil_or_concat rest with hrest | hrest
        · subst hrest
          have hs'2 := hnil rfl
          subst hs'2
          apply hscrT
          simp only [List.length_cons, List.length_nil] at hlen
          omega
        · apply hscr
          obtain ⟨L, b, hl⟩ := hrest
          intro habs
          rw [habs] at hl
          simp at hl

/-- Claim C5: every answer submission preserves the invariant
`score + len(wrongAnswers) = currentIndex`; consequently, answering all
`N` sampled questions of a freshly started non-empty quiz ends with
`score + len(wrongAnswers) = N` on the results screen. -/
theorem C5_score_invariant_and_completion :
    (∀ (choice : Option String) (s s' : Session),
        submitAnswer choice s = some s' →
        scoreInvariant s → scoreInvariant s') ∧
    (∀ (qs : List Question) (choices : List String),
        qs ≠ [] → (∀ c ∈ choices, c.isEmpty = false) →
        choices.length = qs.length →
        ∃ s', runQuiz choices (startState qs) = some s' ∧
          s'.score + s'.wrong_answers.length = qs.length ∧
          s'.screen = Screen.results) := by
  constructor
  · intro choice s s' hsub hinv
    cases hq : s.quiz_data[s.current_index]? with
    | none =>
        unfold submitAnswer at hsub
        rw [hq] at hsub
        cases hsub
    | some q =>
        cases hf : pythonFalsy choice with
        | true =>
            have hid : submitAnswer choice s = some s := by
              unfold submitAnswer
              rw [hq]
              simp [hf]
            rw [hid] at hsub
            cases hsub
            exact hinv
        | false =>
            cases choice with
            | none => simp [pythonFalsy] at hf
            | some str =>
                have hstr : str.isEmpty = false := by
                  simpa [pythonFalsy] using hf
                rw [submitAnswer_eq s q str hq hstr] at hsub
                cases hsub
                unfold scoreInvariant at hinv ⊢
                by_cases hm : normalize str = normalize q.answer <;>
                  simp [hm] <;> omega
  · intro qs choices hqs hall hlen
    obtain ⟨s', hrun, hdata, hidx, hsum, hnil, hscr⟩ :=
      runQuiz_total choices (startState qs) hall (by simp [startState, hlen])
    have hcne : choices ≠ [] := by
      intro h
      rw [h] at hlen
      exact hqs (List.length_eq_zero.mp hlen.symm)
    refine ⟨s', hrun, ?_, hscr hcne⟩
    rw [← hlen]
    simpa [startState] using hsum

/-- Claim C5, witness: the invariant holds after the one-question run,
and that run ends on the results screen with `score + wrong = 1`. -/
theorem C5_witness :
    scoreInvariant { quiz_data := [q1], score := 1, current_index := 1,
                     wrong_answers := [], screen := Screen.results,
                     shuffled_options := ([] : List String) } ∧
    ∃ s', runQuiz ["a"] (startState [q1]) = some s' ∧
      s'.score + s'.wrong_answers.length = 1 ∧
      s'.screen = Screen.results := by
  constructor
  · exact C5_score_invariant_and_completion.1 (some "a") (startState [q1]) _
      (by decide) rfl
  · exact C5_score_invariant_and_completion.2 [q1] ["a"]
      (by decide) (by decide) rfl

/-- Claim C6, counterexample: `["b1", "a1"]` is a valid enumeration of
the distinct chapters of a bank, both identifiers have numeric value 1,
and the sort keeps them in enumeration order `["b1", "a1"]`, not in
their original string order `["a1", "b1"]` as the claim requires. -/
theorem C6_counterexample :
    IsChapterEnum dataTie ["b1", "a1"] ∧
    numericKey "b1" = numericKey "a1" ∧
    get_sorted_chapters ["b1", "a1"] = ["b1", "a1"] ∧
    ["b1", "a1"] ≠ ["a1", "b1"] := by
  refine ⟨?_, by decide, by decide, by decide⟩
  unfold IsChapterEnum
  decide

/-- Claim C6, amended: `get_sorted_chapters` permutes the distinct
chapter identifiers (so the result lists exactly the chapters of the
data, without duplicates); when every identifier contains a digit run the
result is ordered by the integer value of the first digit run, otherwise
it is ordered lexicographically; identifiers with identical numeric value
keep the (unspecified) set-enumeration order, as the two concrete tie
evaluations show, rather than their string order. -/
theorem C6_sorted_chapters (data : List Question) (enum : List String)
    (henum : IsChapterEnum data enum) :
    ((get_sorted_chapters enum).Perm enum ∧
     (get_sorted_chapters enum).Nodup ∧
     (∀ x ∈ get_sorted_chapters enum, ∃ q ∈ data, q.chapterOrDefault = x) ∧
     (∀ q ∈ data, q.chapterOrDefault ∈ get_sorted_chapters enum)) ∧
    ((∀ x ∈ enum, (firstNumericSubstring x).isSome) →
      (get_sorted_chapters enum).Sorted
        (fun a b => numericKey a ≤ numericKey b)) ∧
    ((¬ ∀ x ∈ enum, (firstNumericSubstring x).isSome) →
      (get_sorted_chapters enum).Sorted (fun a b : String => a ≤ b)) ∧
    get_sorted_chapters ["b1", "a1"] = ["b1", "a1"] ∧
    get_sorted_chapters ["a1", "b1"] = ["a1", "b1"] := by
  have hperm : (get_sorted_chapters enum).Perm enum := by
    unfold get_sorted_chapters
    split
    · exact List.perm_insertionSort _ _
    · exact List.perm_insertionSort _ _
  obtain ⟨hnd, hforward, hback⟩ := henum
  refine ⟨⟨hperm, hperm.symm.nodup hnd, ?_, ?_⟩, ?_, ?_, by decide, by decide⟩
  · intro x hx
    exact hforward x (hperm.mem_iff.mp hx)
  · intro q hqmem
    exact hperm.mem_iff.mpr (hback q hqmem)
  · intro hall
    unfold get_sorted_chapters
    split
    next hcond =>
      haveI : IsTotal String (fun a b => numericKey a ≤ numericKey b) :=
        ⟨fun a b => Nat.le_total _ _⟩
      haveI : IsTrans String (fun a b => numericKey a ≤ numericKey b) :=
        ⟨fun a b c hab hbc => Nat.le_trans hab hbc⟩
      exact List.sorted_insertionSort _ _
    next hcond =>
      exfalso
      apply hcond
      rw [List.all_eq_true]
      intro x hx
      exact hall x hx
  · intro hnotall
    unfold get_sorted_chapters
    split
    next hcond =>
      exfalso
      apply hnotall
      intro x hx
      exact List.all_eq_true.mp hcond x hx
    next hcond =>
      exact List.sorted_insertionSort _ _

/-- Claim C6, witness for the amended theorem at the two-chapter bank. -/
theorem C6_witness :
    (get_sorted_chapters ["b1", "a1"]).Perm ["b1", "a1"] ∧
    (get_sorted_chapters ["b1", "a1"]).Sorted
      (fun a b => numericKey a ≤ numericKey b) := by
  have h := C6_sorted_chapters dataTie ["b1", "a1"]
    (by unfold IsChapterEnum; decide)
  exact ⟨h.1.1, h.2.1 (by decide)⟩

/-- Claim C7: the restart action rewrites only the screen field to home,
leaving score, index, wrong answers, sampled questions and the option
cache untouched; the next successful start action is what resets those
fields. -/
theorem C7_restart_frame (s : Session)
    (shuffle : List Question → List Question)
    (all_data : List Question) (selected_ids : List String)
    (hne : selected_ids ≠ []) :
    (restart s).screen = Screen.home ∧
    (restart s).quiz_data = s.quiz_data ∧
    (restart s).score = s.score ∧
    (restart s).current_index = s.current_index ∧
    (restart s).wrong_answers = s.wrong_answers ∧
    (restart s).shuffled_options = s.shuffled_options ∧
    (startExam shuffle all_data selected_ids (restart s)).score = 0 ∧
    (startExam shuffle all_data selected_ids (restart s)).current_index
      = 0 ∧
    (startExam shuffle all_data selected_ids (restart s)).wrong_answers
      = [] ∧
    (startExam shuffle all_data selected_ids (restart s)).shuffled_options
      = [] ∧
    (startExam shuffle all_data selected_ids (restart s)).screen
      = Screen.quiz := by
  have hempty : selected_ids.isEmpty = false := by
    cases selected_ids with
    | nil => exact absurd rfl hne
    | cons a l => rfl
  simp [restart, startExam, hempty]

/-- Claim C7, witness at a finished one-question session. -/
theorem C7_witness :
    (restart sGas).screen = Screen.home ∧
    (startExam id [q1] ["1"] (restart sGas)).score = 0 ∧
    (startExam id [q1] ["1"] (restart sGas)).wrong_answers = [] := by
  obtain ⟨h1, h2, h3, h4, h5, h6, h7, h8, h9, h10, h11⟩ :=
    C7_restart_frame sGas id [q1] ["1"] (by decide)
  exact ⟨h1, h7, h9⟩

/-- Claim C9: on first render of a question the displayed option order is
one shuffle of that question's options (hence a permutation of the same
multiset); any further render of the same question leaves the cached
order unchanged, whatever the random source would produce; and the cache
is cleared exactly by a successful answer submission (the advance). -/
theorem C9_options_shuffle
    (shuffle1 shuffle2 : List String → List String)
    (s : Session) (q : Question)
    (h1 : ∀ l, (shuffle1 l).Perm l) (h2 : ∀ l, (shuffle2 l).Perm l)
    (hq : s.quiz_data[s.current_index]? = some q) :
    (s.shuffled_options = [] →
      renderQuiz shuffle1 s =
        some { s with shuffled_options := shuffle1 q.options } ∧
      (shuffle1 q.options).Perm q.options) ∧
    ((renderQuiz shuffle1 s).bind (renderQuiz shuffle2)
        = renderQuiz shuffle1 s) ∧
    (∀ str s', str.isEmpty = false → submitAnswer (some str) s = some s' →
      s'.shuffled_options = []) := by
  refine ⟨?_, ?_, ?_⟩
  · intro hcache
    constructor
    · unfold renderQuiz
      rw [hq]
      simp [hcache]
    · exact h1 q.options
  · unfold renderQuiz
    rw [hq]
    cases hcache : s.shuffled_options with
    | cons c t => simp [hcache, hq]
    | nil =>
        cases hopts : shuffle1 q.options with
        | cons c t => simp [hcache, hopts, hq]
        | nil =>
            have hoptsnil : q.options = [] := by
              have h := h1 q.options
              rw [hopts] at h
              exact (h.symm).eq_nil
            have hsh2 : shuffle2 [] = [] := (h2 []).eq_nil
            simp [hcache, hopts, hoptsnil, hsh2, hq]
  · intro str s' hstr hsub
    rw [submitAnswer_eq s q str hq hstr] at hsub
    cases hsub
    rfl

/-- Claim C9, witness with the reversal permutation as random source. -/
theorem C9_witness :
    renderQuiz List.reverse sGas =
      some { sGas with shuffled_options := List.reverse qGas.options } ∧
    (List.reverse qGas.options).Perm qGas.options :=
  (C9_options_shuffle List.reverse List.reverse sGas qGas
    (fun l => List.reverse_perm l) (fun l => List.reverse_perm l) rfl).1 rfl

/-- Claim C10: the submission guard tests the selected option for Python
truthiness, not for null: the empty string, although a falsy member of
the question's options, is rejected like a missing selection, with no
state change. -/
theorem C10_truthiness_guard (s : Session) (q : Question)
    (hq : s.quiz_data[s.current_index]? = some q)
    (hmem : "" ∈ q.options) :
    submitAnswer (some "") s = some s ∧ submitAnswer none s = some s := by
  unfold submitAnswer
  rw [hq]
  exact ⟨rfl, rfl⟩

/-- Claim C10, witness at a question carrying the empty string as an
option. -/
theorem C10_witness :
    "" ∈ qEmptyOpt.options ∧
    submitAnswer (some "") sEmptyOpt = some sEmptyOpt :=
  ⟨by decide,
   (C10_truthiness_guard sEmptyOpt qEmptyOpt rfl (by decide)).1⟩

end QuizWeb
